import Mathlib

/-!
Verification of `open_spiel/python/algorithms/alpha_zero.py`.

Shallow embedding conventions:
* Python floats are modelled as rationals (`ℚ`); float arithmetic is exact.
* The transcendental library functions `math.log`, `math.sqrt`, `np.exp` are
  external collaborators and are passed in as abstract functions
  `mlog msqrt mexp : ℚ → ℚ`; every theorem holds for all instantiations.
* `np.random.choice(range(len(probs)), p=probs)` (the global numpy sampler)
  is modelled by an abstract index chooser `choice : List ℚ → ℕ`.
* A raised Python exception is modelled by `Except String` (with the message)
  or, inside the self-play loop, by `Option` returning `none`.
* The self-play `while` loop is run on explicit fuel; theorems speak about
  runs that terminate within the fuel.
-/

/-- `SearchChildStats` as used by `alpha_zero_ucb_score` and
`AlphaZero._select_action`: the statistics of one child of an MCTS search
node (produced by the external tree-search component). -/
structure Child where
  action : ℕ
  explore_count : ℕ
  total_reward : ℚ
  prior : ℚ
  outcome : Option (List ℚ)
  player : ℕ
  deriving Repr, DecidableEq

/-- Embedding of `alpha_zero_ucb_score(child, parent_explore_count, params)`.
`mlog` and `msqrt` stand for `math.log` and `math.sqrt`.  The Python
expression `child.explore_count and child.total_reward / child.explore_count`
evaluates to the integer `0` when `explore_count == 0` (falsy short-circuit)
and to the quotient otherwise; its denotation is the conditional below. -/
def alpha_zero_ucb_score (mlog msqrt : ℚ → ℚ) (child : Child)
    (parent_explore_count : ℕ) (params : ℚ × ℚ) : ℚ :=
  let c_init := params.1
  let c_base := params.2
  match child.outcome with
  | some o => o.getD child.player 0
  | none =>
    let c0 := mlog (((parent_explore_count : ℚ) + c_base + 1) / c_base) + c_init
    let c1 := c0 * (msqrt (parent_explore_count : ℚ) / ((child.explore_count : ℚ) + 1))
    let prior_score := c1 * child.prior
    let value_score : ℚ :=
      if child.explore_count = 0 then 0
      else child.total_reward / (child.explore_count : ℚ)
    prior_score + value_score

/-- `np.amax` of a 1-D array (the source only ever applies it along the last
axis of a 1-D array). Python errors on an empty array; here the value on `[]`
is irrelevant since all uses are guarded by nonemptiness. -/
def np_amax (logits : List ℚ) : ℚ :=
  logits.foldl max (logits.headD 0)

/-- Embedding of `np_softmax(logits)`: subtract the maximum, exponentiate
(`mexp` stands for `np.exp`), and normalize by the sum. -/
def np_softmax (mexp : ℚ → ℚ) (logits : List ℚ) : List ℚ :=
  let max_logit := np_amax logits
  let exp_logit := logits.map (fun x => mexp (x - max_logit))
  exp_logit.map (fun x => x / exp_logit.sum)

/-- Strict lexicographic order on `(explore_count, action)` pairs, as Python
compares 2-tuples of integers. -/
def lexLt (a b : ℕ × ℕ) : Prop :=
  a.1 < b.1 ∨ (a.1 = b.1 ∧ a.2 < b.2)

instance (a b : ℕ × ℕ) : Decidable (lexLt a b) := by
  unfold lexLt; infer_instance

/-- Non-strict lexicographic order on `(explore_count, action)` pairs. -/
def lexLe (a b : ℕ × ℕ) : Prop :=
  a.1 < b.1 ∨ (a.1 = b.1 ∧ a.2 ≤ b.2)

/-- Python `max` over a nonempty list of integer 2-tuples: the first
lexicographically maximal element; `none` models the `ValueError` raised on
an empty list. -/
def pyMax : List (ℕ × ℕ) → Option (ℕ × ℕ)
  | [] => none
  | x :: xs => some (xs.foldl (fun a b => if lexLt a b then b else a) x)

/-- Embedding of `AlphaZero._select_action(children, game_history_len)`.
`thresh` is `self._action_selection_transition`; `choice` models the global
`np.random.choice` sampler; `none` models a raised exception (empty child
list, or an out-of-range sampled index). -/
def selectAction (mexp : ℚ → ℚ) (choice : List ℚ → ℕ) (children : List Child)
    (game_history_len thresh : ℕ) : Option ℕ :=
  let explore_counts := children.map (fun c => (c.explore_count, c.action))
  if game_history_len < thresh then
    let probs := np_softmax mexp (explore_counts.map (fun p => (p.1 : ℚ)))
    let action_index := choice probs
    (explore_counts.get? action_index).map (fun p => p.2)
  else
    (pyMax explore_counts).map (fun p => p.2)

/-- `pyspiel.GameType.ChanceMode`. -/
inductive ChanceMode where
  | DETERMINISTIC
  | EXPLICIT_STOCHASTIC
  | SAMPLED_STOCHASTIC
  deriving Repr, DecidableEq

/-- `pyspiel.GameType.Information`. -/
inductive Information where
  | ONE_SHOT
  | PERFECT_INFORMATION
  | IMPERFECT_INFORMATION
  deriving Repr, DecidableEq

/-- `pyspiel.GameType.Dynamics`. -/
inductive Dynamics where
  | SEQUENTIAL
  | SIMULTANEOUS
  deriving Repr, DecidableEq

/-- `pyspiel.GameType.Utility`. -/
inductive Utility where
  | ZERO_SUM
  | CONSTANT_SUM
  | GENERAL_SUM
  | IDENTICAL
  deriving Repr, DecidableEq

/-- Rendering of a `ChanceMode` value inside a formatted error message. -/
def chanceModeStr : ChanceMode → String
  | ChanceMode.DETERMINISTIC => "ChanceMode.DETERMINISTIC"
  | ChanceMode.EXPLICIT_STOCHASTIC => "ChanceMode.EXPLICIT_STOCHASTIC"
  | ChanceMode.SAMPLED_STOCHASTIC => "ChanceMode.SAMPLED_STOCHASTIC"

/-- Rendering of an `Information` value inside a formatted error message. -/
def informationStr : Information → String
  | Information.ONE_SHOT => "Information.ONE_SHOT"
  | Information.PERFECT_INFORMATION => "Information.PERFECT_INFORMATION"
  | Information.IMPERFECT_INFORMATION => "Information.IMPERFECT_INFORMATION"

/-- Rendering of a `Dynamics` value inside a formatted error message. -/
def dynamicsStr : Dynamics → String
  | Dynamics.SEQUENTIAL => "Dynamics.SEQUENTIAL"
  | Dynamics.SIMULTANEOUS => "Dynamics.SIMULTANEOUS"

/-- Rendering of a `Utility` value inside a formatted error message. -/
def utilityStr : Utility → String
  | Utility.ZERO_SUM => "Utility.ZERO_SUM"
  | Utility.CONSTANT_SUM => "Utility.CONSTANT_SUM"
  | Utility.GENERAL_SUM => "Utility.GENERAL_SUM"
  | Utility.IDENTICAL => "Utility.IDENTICAL"

/-- The game abstraction consumed by `AlphaZero`, over an abstract state type
`S`: the structural metadata reported by `game.get_type()` together with the
play interface.  The error messages in `AlphaZero.__init__` format
`game.chance_mode` etc.; here those attribute reads are identified with the
corresponding `get_type()` metadata fields. -/
structure GameM (S : Type) where
  num_players : ℕ
  chance_mode : ChanceMode
  information : Information
  dynamics : Dynamics
  utility : Utility
  new_initial_state : S
  is_terminal : S → Bool
  observation_tensor : S → List ℚ
  rewards : S → List ℚ
  num_distinct_actions : ℕ
  apply_action : S → ℕ → S
  history_len : S → ℕ

/-- One training transition, `MCTSResult(observation, target_value,
target_policy)`. -/
structure MCTSResult where
  observation : List ℚ
  target_value : ℚ
  target_policy : List ℚ
  deriving Repr, DecidableEq, Inhabited

/-- `LossValues(total, policy, value, l2)` as returned by `AlphaZero.update`
and `AlphaZeroKerasEvaluator.update`. -/
structure LossValues where
  total : ℚ
  policy : ℚ
  value : ℚ
  l2 : ℚ
  deriving Repr, DecidableEq

/-- Modelled from the spec: `dqn.ReplayBuffer` (the `dqn` module is not part
of the provided sources).  Fixed-capacity FIFO store of transitions. -/
structure ReplayBuffer where
  capacity : ℕ
  data : List MCTSResult
  deriving Repr, DecidableEq

/-- Modelled from the spec: `ReplayBuffer.add` evicts the single oldest
stored transition when at capacity, then appends the new one. -/
def ReplayBuffer.add (buf : ReplayBuffer) (t : MCTSResult) : ReplayBuffer :=
  let trimmed := if buf.capacity ≤ buf.data.length then buf.data.drop 1 else buf.data
  { buf with data := trimmed ++ [t] }

/-- Modelled from the spec: `ReplayBuffer.sample(n, with_replacement=true)`
returns exactly `n` transitions drawn uniformly at random from the current
contents; sampling an empty buffer raises.  The random draws are modelled by
an abstract `rand : ℕ → ℕ` giving the raw draw for each position, reduced
modulo the buffer size so every draw addresses a stored item. -/
def ReplayBuffer.sample (buf : ReplayBuffer) (n : ℕ) (rand : ℕ → ℕ) :
    Except String (List MCTSResult) :=
  if buf.data.length = 0 then Except.error "ReplayBuffer is empty"
  else Except.ok ((List.range n).map (fun i =>
    buf.data.getD (rand i % buf.data.length) default))

/-- The MCTS bot consumed by `AlphaZero`: `bot.mcts_search(state)` returning
the root's children, and `bot.evaluator.update(data)` returning the loss
4-tuple `(total, policy, value, l2)`.  Both are external collaborators. -/
structure MCTSBot (S : Type) where
  mcts_search : S → List Child
  evaluator_update : List MCTSResult → ℚ × ℚ × ℚ × ℚ

/-- The attributes `AlphaZero.__init__` actually stores on `self`. -/
structure AlphaZeroState (S : Type) where
  bot : MCTSBot S
  game : GameM S
  buffer : ReplayBuffer
  num_self_play_games : ℕ
  action_selection_transition : ℕ
  batch_size : ℕ

/-- Embedding of `AlphaZero.__init__`.  The argument order matches the
source: `(game, bot, replay_buffer_capacity, action_selection_transition,
num_self_play_games, num_training_rounds, batch_size, random_state)`.  Each
failed structural check raises `ValueError` with the message built by the
source (modelled as `Except.error`); on success the stored attribute set is
returned.  `random_state` is modelled as an opaque optional seed. -/
def alphaZeroInit {S : Type} (game : GameM S) (bot : MCTSBot S)
    (replay_buffer_capacity : ℕ) (action_selection_transition : ℕ)
    (num_self_play_games : ℕ) (num_training_rounds : ℕ) (batch_size : ℕ)
    (random_state : Option ℕ) : Except String (AlphaZeroState S) :=
  if game.num_players ≠ 2 then
    Except.error "Game must be a 2-player game"
  else if game.chance_mode ≠ ChanceMode.DETERMINISTIC then
    Except.error ("The game must be a Deterministic one, not " ++
      chanceModeStr game.chance_mode)
  else if game.information ≠ Information.PERFECT_INFORMATION then
    Except.error ("The game must be a perfect information one, not " ++
      informationStr game.information)
  else if game.dynamics ≠ Dynamics.SEQUENTIAL then
    Except.error ("The game must be turn-based, not " ++
      dynamicsStr game.dynamics)
  else if game.utility ≠ Utility.ZERO_SUM then
    Except.error ("The game must be 0-sum, not " ++ utilityStr game.utility)
  else
    Except.ok
      { bot := bot
        game := game
        buffer := { capacity := replay_buffer_capacity, data := [] }
        num_self_play_games := num_self_play_games
        action_selection_transition := action_selection_transition
        batch_size := batch_size }

/-- Embedding of `AlphaZero.update`: sample `batch_size` transitions with
replacement, feed them to `bot.evaluator.update`, repackage the four losses
as a `LossValues` record. -/
def alphaZeroUpdate {S : Type} (az : AlphaZeroState S) (rand : ℕ → ℕ) :
    Except String LossValues :=
  (az.buffer.sample az.batch_size rand).map (fun data =>
    let r := az.bot.evaluator_update data
    { total := r.1, policy := r.2.1, value := r.2.2.1, l2 := r.2.2.2 })

/-- The target-policy construction inside `AlphaZero._self_play_single`:
start from `np.zeros(num_distinct_actions)`, write each child's
`explore_count` at index `child.action`, divide elementwise by the array
sum. -/
def targetPolicy (num_distinct_actions : ℕ) (children : List Child) : List ℚ :=
  let arr := children.foldl
    (fun a c => a.set c.action (c.explore_count : ℚ))
    (List.replicate num_distinct_actions (0 : ℚ))
  arr.map (fun x => x / arr.sum)

/-- The `while not state.is_terminal()` loop of `_self_play_single`, on
explicit fuel.  Accumulates the `(observation, target_policy)` records in
play order and returns them with the terminal state; `none` models either
fuel exhaustion or an exception inside `_select_action`. -/
def selfPlayLoop {S : Type} (g : GameM S) (search : S → List Child)
    (mexp : ℚ → ℚ) (choice : List ℚ → ℕ) (thresh : ℕ) :
    ℕ → S → List (List ℚ × List ℚ) → Option (S × List (List ℚ × List ℚ))
  | 0, s, acc => if g.is_terminal s then some (s, acc.reverse) else none
  | fuel + 1, s, acc =>
    if g.is_terminal s then some (s, acc.reverse)
    else
      let children := search s
      let obs := g.observation_tensor s
      let pol := targetPolicy g.num_distinct_actions children
      match selectAction mexp choice children (g.history_len s) thresh with
      | none => none
      | some a =>
        selfPlayLoop g search mexp choice thresh fuel (g.apply_action s a)
          ((obs, pol) :: acc)

/-- The transitions `_self_play_single` emits: for recorded step `i`
(0-indexed in play order), `target_value = terminal_rewards[i % 2]` where
`terminal_rewards = state.rewards()` at the terminal state. -/
def selfPlayTransitions {S : Type} (g : GameM S) (search : S → List Child)
    (mexp : ℚ → ℚ) (choice : List ℚ → ℕ) (thresh fuel : ℕ) (s0 : S) :
    Option (List MCTSResult) :=
  (selfPlayLoop g search mexp choice thresh fuel s0 []).map (fun r =>
    r.2.enum.map (fun ip =>
      { observation := ip.2.1
        target_value := (g.rewards r.1).getD (ip.1 % 2) 0
        target_policy := ip.2.2 }))

/-- Embedding of `AlphaZero._self_play_single`: play one episode from the
initial state and add every emitted transition to the replay buffer. -/
def selfPlaySingle {S : Type} (az : AlphaZeroState S) (mexp : ℚ → ℚ)
    (choice : List ℚ → ℕ) (fuel : ℕ) : Option (AlphaZeroState S) :=
  (selfPlayTransitions az.game az.bot.mcts_search mexp choice
      az.action_selection_transition fuel az.game.new_initial_state).map
    (fun ts => { az with buffer := ts.foldl ReplayBuffer.add az.buffer })

/-- The state interface used by `AlphaZeroKerasEvaluator.value_and_prior`. -/
structure EvalState where
  observation_tensor : List ℚ
  legal_actions : List ℕ
  legal_actions_mask : List Bool

/-- Modelled from the spec: `masked_softmax.np_masked_softmax(policy, mask)`
(the `masked_softmax` module is not part of the provided sources): softmax
normalization restricted to the unmasked entries — masked-out entries are
forced to probability 0 and do not participate in the normalization
denominator. `mexp` stands for the exponential. -/
def np_masked_softmax (mexp : ℚ → ℚ) (policy : List ℚ) (mask : List Bool) :
    List ℚ :=
  let masked := (policy.zip mask).map (fun pm => if pm.2 then mexp pm.1 else 0)
  masked.map (fun x => x / masked.sum)

/-- Embedding of `AlphaZeroKerasEvaluator.value_and_prior(state)`.  The
Keras model is the external collaborator `model`, mapping the observation
tensor to a scalar value `v` and a raw policy vector; the method then
renormalizes the policy by masked softmax over the legal actions, pairs each
legal action with its renormalized probability, and expands the scalar value
to the 2-player antisymmetric vector `[v, -v]`. -/
def value_and_prior (mexp : ℚ → ℚ) (model : List ℚ → ℚ × List ℚ)
    (state : EvalState) : List ℚ × List (ℕ × ℚ) :=
  let value := (model state.observation_tensor).1
  let policyRaw := (model state.observation_tensor).2
  let policy := np_masked_softmax mexp policyRaw state.legal_actions_mask
  let pairs := state.legal_actions.map (fun a => (a, policy.getD a 0))
  ([value, -value], pairs)

/-- `tf.losses.mean_squared_error(labels, predictions)`: the mean of the
squared componentwise differences. -/
def mean_squared_error (labels predictions : List ℚ) : ℚ :=
  (((labels.zip predictions).map (fun vp => (vp.1 - vp.2) ^ 2)).sum) /
    ((labels.length : ℚ))

/-- `tf.nn.softmax_cross_entropy_with_logits_v2(logits, labels)` for one row:
the cross entropy `-Σ labels i * log (softmax logits) i`, with `mexp`/`mlog`
standing for the exponential and logarithm. -/
def softmax_cross_entropy (mexp mlog : ℚ → ℚ) (logits labels : List ℚ) : ℚ :=
  let denom := (logits.map mexp).sum
  Neg.neg
    (((labels.zip logits).map (fun lp => lp.1 * mlog (mexp lp.2 / denom))).sum)

/-- `tf.nn.l2_loss(t)`: half the sum of the squared entries of `t`. -/
def l2_loss (t : List ℚ) : ℚ :=
  ((t.map (fun x => x ^ 2)).sum) / 2

/-- Embedding of `AlphaZeroKerasEvaluator.update(training_examples)`.  The
Keras model is the external collaborator `model`, mapping the stacked
observations to per-example predicted values and policy logits;
`trainable_variables` is the flattened list of the model's weight tensors.
The losses are composed exactly as in the source:
`loss = loss_policy + loss_value + loss_l2`, with
`loss_value = tf.losses.mean_squared_error(values, target_values)`,
`loss_policy` the mean per-example softmax cross entropy, and
`loss_l2 = Σ l2_regularization * tf.nn.l2_loss(weights)` over the trainable
variables.  The optimizer step mutates only the external model, not the
returned record. -/
def kerasEvaluatorUpdate (mexp mlog : ℚ → ℚ)
    (model : List (List ℚ) → List ℚ × List (List ℚ))
    (trainable_variables : List (List ℚ)) (l2_regularization : ℚ)
    (training_examples : List (List ℚ × ℚ × List ℚ)) : LossValues :=
  let observations := training_examples.map (fun e => e.1)
  let target_values := training_examples.map (fun e => e.2.1)
  let target_policies := training_examples.map (fun e => e.2.2)
  let values := (model observations).1
  let policy_logits := (model observations).2
  let loss_value := mean_squared_error values target_values
  let per_example :=
    (policy_logits.zip target_policies).map
      (fun lp => softmax_cross_entropy mexp mlog lp.1 lp.2)
  let loss_policy := per_example.sum / (per_example.length : ℚ)
  let loss_l2 :=
    (trainable_variables.map (fun w => l2_regularization * l2_loss w)).sum
  let loss := loss_policy + loss_value + loss_l2
  { total := loss, policy := loss_policy, value := loss_value, l2 := loss_l2 }

/-- A game satisfying all five structural preconditions, over the unit state
type; used to instantiate theorems at concrete inputs. -/
def gameValid : GameM Unit :=
  { num_players := 2
    chance_mode := ChanceMode.DETERMINISTIC
    information := Information.PERFECT_INFORMATION
    dynamics := Dynamics.SEQUENTIAL
    utility := Utility.ZERO_SUM
    new_initial_state := ()
    is_terminal := fun _ => true
    observation_tensor := fun _ => []
    rewards := fun _ => [0, 0]
    num_distinct_actions := 1
    apply_action := fun s _ => s
    history_len := fun _ => 0 }

/-- A trivial bot for concrete instantiations. -/
def botTrivial : MCTSBot Unit :=
  { mcts_search := fun _ => []
    evaluator_update := fun _ => (10, 4, 5, 1) }

/-- A concrete controller state with one stored transition, for concrete
instantiations of the update theorems. -/
def azToy : AlphaZeroState Unit :=
  { bot := botTrivial
    game := gameValid
    buffer := { capacity := 4, data := [default] }
    num_self_play_games := 1
    action_selection_transition := 5
    batch_size := 3 }

/-- A concrete resolved-terminal child, for instantiating the scorer
theorems. -/
def childSolved : Child :=
  { action := 0, explore_count := 7, total_reward := 3, prior := 1 / 2,
    outcome := some [5, -5], player := 1 }

/-- A concrete unvisited, unresolved child, for instantiating the scorer
theorems. -/
def childFresh : Child :=
  { action := 2, explore_count := 0, total_reward := 9, prior := 1 / 4,
    outcome := none, player := 0 }

/-- A concrete once-visited child for the toy self-play episode. -/
def toyChild : Child :=
  { action := 0, explore_count := 1, total_reward := 0, prior := 1,
    outcome := none, player := 0 }

/-- A 1-action toy game over `ℕ` states: the state counts the moves played,
the game ends after one move, and the terminal reward vector is `[5, -5]`. -/
def toyGame : GameM ℕ :=
  { num_players := 2
    chance_mode := ChanceMode.DETERMINISTIC
    information := Information.PERFECT_INFORMATION
    dynamics := Dynamics.SEQUENTIAL
    utility := Utility.ZERO_SUM
    new_initial_state := 0
    is_terminal := fun s => decide (1 ≤ s)
    observation_tensor := fun _ => []
    rewards := fun _ => [5, -5]
    num_distinct_actions := 1
    apply_action := fun s _ => s + 1
    history_len := fun s => s }

/-- A toy search routine whose root always has the single child
`toyChild`. -/
def toySearch : ℕ → List Child := fun _ => [toyChild]

/-- Concrete child with action-id 0, visited twice. -/
def childA : Child :=
  { action := 0, explore_count := 2, total_reward := 1, prior := 1 / 3,
    outcome := none, player := 0 }

/-- Concrete child with action-id 3, visited twice (ties `childA` on
explore count). -/
def childB : Child :=
  { action := 3, explore_count := 2, total_reward := 0, prior := 1 / 3,
    outcome := none, player := 0 }

/-- Concrete child with action-id 1, visited once. -/
def childC : Child :=
  { action := 1, explore_count := 1, total_reward := 0, prior := 1 / 3,
    outcome := none, player := 0 }

/-- C4: whenever `child.outcome` is present, `alpha_zero_ucb_score` returns
exactly `child.outcome[child.player]`, for every `prior`, `explore_count`,
`total_reward`, `parent_explore_count`, `c_init`, `c_base`, and for every
interpretation of `math.log` and `math.sqrt`. -/
theorem claim_C4 (mlog msqrt : ℚ → ℚ) (child : Child)
    (parent_explore_count : ℕ) (params : ℚ × ℚ) (o : List ℚ)
    (h : child.outcome = some o) :
    alpha_zero_ucb_score mlog msqrt child parent_explore_count params =
      o.getD child.player 0 := by
  unfold alpha_zero_ucb_score
  rw [h]

/-- Witness for C4 at a concrete solved child: the score is the outcome
entry of `child.player`, here `-5`. -/
theorem claim_C4_witness :
    childSolved.outcome = some [5, -5] ∧
    alpha_zero_ucb_score (fun _ => 0) (fun _ => 1) childSolved 9 (1, 2) = -5 := by
  refine ⟨rfl, ?_⟩
  rw [claim_C4 (fun _ => 0) (fun _ => 1) childSolved 9 (1, 2) [5, -5] rfl]
  rfl

/-- C5: for a child without an outcome, the score is
`(log((parent + c_base + 1) / c_base) + c_init) * sqrt(parent) /
(explore_count + 1) * prior` plus an exploitation term that is exactly `0`
when `explore_count = 0` (regardless of `total_reward`) and
`total_reward / explore_count` otherwise. -/
theorem claim_C5 (mlog msqrt : ℚ → ℚ) (child : Child)
    (parent_explore_count : ℕ) (c_init c_base : ℚ)
    (h : child.outcome = none) :
    alpha_zero_ucb_score mlog msqrt child parent_explore_count
        (c_init, c_base) =
      (mlog (((parent_explore_count : ℚ) + c_base + 1) / c_base) + c_init) *
          (msqrt (parent_explore_count : ℚ) /
            ((child.explore_count : ℚ) + 1)) * child.prior +
        (if child.explore_count = 0 then 0
         else child.total_reward / (child.explore_count : ℚ)) ∧
    (child.explore_count = 0 →
      alpha_zero_ucb_score mlog msqrt child parent_explore_count
          (c_init, c_base) =
        (mlog (((parent_explore_count : ℚ) + c_base + 1) / c_base) + c_init) *
            (msqrt (parent_explore_count : ℚ) /
              ((child.explore_count : ℚ) + 1)) * child.prior) := by
  constructor
  · unfold alpha_zero_ucb_score
    rw [h]
  · intro h0
    unfold alpha_zero_ucb_score
    rw [h]
    simp [h0]

/-- Witness for C5 at a concrete unvisited child with nonzero
`total_reward = 9`: the exploitation term is exactly `0`. -/
theorem claim_C5_witness :
    childFresh.outcome = none ∧
    childFresh.explore_count = 0 ∧
    alpha_zero_ucb_score (fun _ => 0) (fun _ => 1) childFresh 9 (1, 2) =
      ((fun (_ : ℚ) => (0 : ℚ)) (((9 : ℚ) + 2 + 1) / 2) + 1) *
        ((fun (_ : ℚ) => (1 : ℚ)) (9 : ℚ) / ((childFresh.explore_count : ℚ) + 1)) *
        childFresh.prior := by
  refine ⟨rfl, rfl, ?_⟩
  exact (claim_C5 (fun _ => 0) (fun _ => 1) childFresh 9 1 2 rfl).2 rfl

/-- C10: `random_state` is never stored or consumed: for any two values of
`random_state` and otherwise identical constructor arguments, construction
yields identical objects, and hence every downstream behavior — in
particular self-play action sampling, which is driven by the global
`np.random.choice` sampler `choice` — is independent of `random_state`. -/
theorem claim_C10 {S : Type} (game : GameM S) (bot : MCTSBot S)
    (replay_buffer_capacity action_selection_transition num_self_play_games
      num_training_rounds batch_size : ℕ) (rs rs' : Option ℕ)
    (mexp : ℚ → ℚ) (choice : List ℚ → ℕ) (fuel : ℕ) :
    alphaZeroInit game bot replay_buffer_capacity action_selection_transition
        num_self_play_games num_training_rounds batch_size rs =
      alphaZeroInit game bot replay_buffer_capacity action_selection_transition
        num_self_play_games num_training_rounds batch_size rs' ∧
    (alphaZeroInit game bot replay_buffer_capacity action_selection_transition
        num_self_play_games num_training_rounds batch_size rs).map
        (fun az => selfPlaySingle az mexp choice fuel) =
      (alphaZeroInit game bot replay_buffer_capacity action_selection_transition
        num_self_play_games num_training_rounds batch_size rs').map
        (fun az => selfPlaySingle az mexp choice fuel) := by
  exact ⟨rfl, rfl⟩

/-- Counterexample to C1 as stated: the error raised for a violated
player-count precondition does NOT carry the actual value.  Two games that
differ only in their (offending) player counts — 3 and 4 — produce the
identical error, so the error cannot carry the offending property's actual
value. -/
theorem claim_C1_counterexample :
    ({ gameValid with num_players := 3 } : GameM Unit).num_players ≠
      ({ gameValid with num_players := 4 } : GameM Unit).num_players ∧
    alphaZeroInit { gameValid with num_players := 3 } botTrivial 10 5 1 1 2
        none = Except.error "Game must be a 2-player game" ∧
    alphaZeroInit { gameValid with num_players := 4 } botTrivial 10 5 1 1 2
        none = Except.error "Game must be a 2-player game" := by
  refine ⟨by decide, rfl, rfl⟩

/-- C1 (amended): construction validates the five structural preconditions
in order (player count, chance mode, information, dynamics, utility); the
first violated precondition fails construction with an error distinct to
that precondition, and no object is produced.  The chance-mode,
information, dynamics and utility errors carry the offending actual value;
the player-count error is a fixed message that does not.  A game reporting
`Dynamics = SIMULTANEOUS` (all earlier checks passing) fails with the error
referencing dynamics.  When all preconditions hold, the fully constructed
object is returned. -/
theorem claim_C1_amended {S : Type} (game : GameM S) (bot : MCTSBot S)
    (cap ast nsp ntr bs : ℕ) (rs : Option ℕ) :
    (game.num_players ≠ 2 →
      alphaZeroInit game bot cap ast nsp ntr bs rs =
        Except.error "Game must be a 2-player game") ∧
    (game.num_players = 2 → game.chance_mode ≠ ChanceMode.DETERMINISTIC →
      alphaZeroInit game bot cap ast nsp ntr bs rs =
        Except.error ("The game must be a Deterministic one, not " ++
          chanceModeStr game.chance_mode)) ∧
    (game.num_players = 2 → game.chance_mode = ChanceMode.DETERMINISTIC →
      game.information ≠ Information.PERFECT_INFORMATION →
      alphaZeroInit game bot cap ast nsp ntr bs rs =
        Except.error ("The game must be a perfect information one, not " ++
          informationStr game.information)) ∧
    (game.num_players = 2 → game.chance_mode = ChanceMode.DETERMINISTIC →
      game.information = Information.PERFECT_INFORMATION →
      game.dynamics ≠ Dynamics.SEQUENTIAL →
      alphaZeroInit game bot cap ast nsp ntr bs rs =
        Except.error ("The game must be turn-based, not " ++
          dynamicsStr game.dynamics)) ∧
    (game.num_players = 2 → game.chance_mode = ChanceMode.DETERMINISTIC →
      game.information = Information.PERFECT_INFORMATION →
      game.dynamics = Dynamics.SEQUENTIAL →
      game.utility ≠ Utility.ZERO_SUM →
      alphaZeroInit game bot cap ast nsp ntr bs rs =
        Except.error ("The game must be 0-sum, not " ++
          utilityStr game.utility)) ∧
    (game.num_players = 2 → game.chance_mode = ChanceMode.DETERMINISTIC →
      game.information = Information.PERFECT_INFORMATION →
      game.dynamics = Dynamics.SEQUENTIAL → game.utility = Utility.ZERO_SUM →
      alphaZeroInit game bot cap ast nsp ntr bs rs =
        Except.ok
          { bot := bot, game := game,
            buffer := { capacity := cap, data := [] },
            num_self_play_games := nsp,
            action_selection_transition := ast,
            batch_size := bs }) := by
  unfold alphaZeroInit
  refine ⟨fun h1 => ?_, fun h1 h2 => ?_, fun h1 h2 h3 => ?_,
    fun h1 h2 h3 h4 => ?_, fun h1 h2 h3 h4 h5 => ?_,
    fun h1 h2 h3 h4 h5 => ?_⟩
  · simp [h1]
  · simp [h1, h2]
  · simp [h1, h2, h3]
  · simp [h1, h2, h3, h4]
  · simp [h1, h2, h3, h4, h5]
  · simp [h1, h2, h3, h4, h5]

/-- Witness for C1 (amended): a game reporting `Dynamics.SIMULTANEOUS`
(all earlier preconditions satisfied) fails construction with the dynamics
error carrying the actual value. -/
theorem claim_C1_witness :
    ({ gameValid with dynamics := Dynamics.SIMULTANEOUS } :
        GameM Unit).num_players = 2 ∧
    alphaZeroInit { gameValid with dynamics := Dynamics.SIMULTANEOUS }
        botTrivial 10 5 1 1 2 none =
      Except.error ("The game must be turn-based, not " ++
        dynamicsStr Dynamics.SIMULTANEOUS) := by
  refine ⟨rfl, ?_⟩
  exact (claim_C1_amended
      { gameValid with dynamics := Dynamics.SIMULTANEOUS }
      botTrivial 10 5 1 1 2 none).2.2.2.1 rfl rfl rfl (by decide)

/-- Counterexample to C3 as stated: `num_training_rounds` is accepted by the
constructor but never stored, so the constructed Training Controller is
identical for `num_training_rounds = 10` and `= 11`; no behavior of the
constructed object — in particular no orchestration — can run "for
`num_training_rounds` iterations". -/
theorem claim_C3_counterexample :
    (10 : ℕ) ≠ 11 ∧
    alphaZeroInit gameValid botTrivial 10 5 1 10 2 none =
      alphaZeroInit gameValid botTrivial 10 5 1 11 2 none := by
  exact ⟨by decide, rfl⟩

/-- C3 (amended): the Training Controller provides the two phases but no
round loop: `self_play` populates the ReplayBuffer, and a single `update`
call samples a batch of exactly `batch_size` transitions with replacement
from the (nonempty) ReplayBuffer and invokes the Evaluator's update on that
batch, repackaging the returned losses as a `LossValues` report.  The
`num_training_rounds` argument is discarded at construction; iterating the
rounds is left to the caller. -/
theorem claim_C3_amended {S : Type} (az : AlphaZeroState S) (rand : ℕ → ℕ)
    (game : GameM S) (bot : MCTSBot S) (cap ast nsp r1 r2 bs : ℕ)
    (rs : Option ℕ) (hne : az.buffer.data ≠ []) :
    alphaZeroInit game bot cap ast nsp r1 bs rs =
      alphaZeroInit game bot cap ast nsp r2 bs rs ∧
    ∃ batch : List MCTSResult,
      az.buffer.sample az.batch_size rand = Except.ok batch ∧
      batch.length = az.batch_size ∧
      (∀ t ∈ batch, t ∈ az.buffer.data) ∧
      alphaZeroUpdate az rand = Except.ok
        { total := (az.bot.evaluator_update batch).1
          policy := (az.bot.evaluator_update batch).2.1
          value := (az.bot.evaluator_update batch).2.2.1
          l2 := (az.bot.evaluator_update batch).2.2.2 } := by
  have hlen : az.buffer.data.length ≠ 0 :=
    fun h => hne (List.length_eq_zero.mp h)
  refine ⟨rfl, ?_⟩
  refine ⟨(List.range az.batch_size).map (fun i =>
    az.buffer.data.getD (rand i % az.buffer.data.length) default), ?_, ?_, ?_, ?_⟩
  · unfold ReplayBuffer.sample
    simp [hlen]
  · simp
  · intro t ht
    simp only [List.mem_map, List.mem_range] at ht
    obtain ⟨i, _, hi⟩ := ht
    have hlt : rand i % az.buffer.data.length < az.buffer.data.length :=
      Nat.mod_lt _ (Nat.pos_of_ne_zero hlen)
    rw [← hi, List.getD_eq_getElem _ _ hlt]
    exact List.getElem_mem hlt
  · unfold alphaZeroUpdate ReplayBuffer.sample
    simp [hlen, Except.map]

/-- Witness for C3 (amended) at the concrete controller `azToy` (buffer
holding one transition, `batch_size = 3`): sampling returns three copies of
the stored transition and the evaluator is invoked on them. -/
theorem claim_C3_amended_witness :
    azToy.buffer.data ≠ [] ∧
    (alphaZeroInit gameValid botTrivial 7 5 1 10 3 none =
      alphaZeroInit gameValid botTrivial 7 5 1 11 3 none ∧
    ∃ batch : List MCTSResult,
      azToy.buffer.sample azToy.batch_size (fun _ => 0) = Except.ok batch ∧
      batch.length = azToy.batch_size ∧
      (∀ t ∈ batch, t ∈ azToy.buffer.data) ∧
      alphaZeroUpdate azToy (fun _ => 0) = Except.ok
        { total := (azToy.bot.evaluator_update batch).1
          policy := (azToy.bot.evaluator_update batch).2.1
          value := (azToy.bot.evaluator_update batch).2.2.1
          l2 := (azToy.bot.evaluator_update batch).2.2.2 }) := by
  refine ⟨by decide, ?_⟩
  exact claim_C3_amended azToy (fun _ => 0) gameValid botTrivial 7 5 1 10 11 3
    none (by decide)

/-- Counterexample to C9 as stated: with a single trainable weight tensor
`[2]` and regularization coefficient `1`, the l2 component of the returned
report is `1 * tf.nn.l2_loss([2]) = 2` — half the claimed
"coefficient times the sum of squared magnitudes", which would be `4`. -/
theorem claim_C9_counterexample :
    (kerasEvaluatorUpdate id id (fun _ => ([0], [[0]])) [[2]] 1
        [([0], 0, [0])]).l2 = 2 ∧
    (1 : ℚ) * ((([2] : List ℚ).map (fun x => x ^ 2)).sum) = 4 ∧
    (kerasEvaluatorUpdate id id (fun _ => ([0], [[0]])) [[2]] 1
        [([0], 0, [0])]).l2 ≠
      (1 : ℚ) * ((([2] : List ℚ).map (fun x => x ^ 2)).sum) := by
  have h2 : (kerasEvaluatorUpdate id id (fun _ => ([0], [[0]])) [[2]] 1
      [([0], 0, [0])]).l2 = 2 := by
    simp [kerasEvaluatorUpdate, l2_loss]
    norm_num
  have h4 : (1 : ℚ) * ((([2] : List ℚ).map (fun x => x ^ 2)).sum) = 4 := by
    norm_num
  refine ⟨h2, h4, ?_⟩
  rw [h2, h4]
  norm_num

/-- C9 (amended): every `LossValues` returned by the Evaluator's update
satisfies `total = policy + value + l2` exactly (hence within `1e-6`
absolute tolerance), where the value loss is the mean squared error against
the fixed target values, the policy loss is the mean softmax cross entropy
against the fixed target policies, and the l2 loss is the regularization
coefficient times HALF the sum of squared magnitudes of each trainable
weight tensor (`tf.nn.l2_loss`), summed over the tensors. -/
theorem claim_C9_amended (mexp mlog : ℚ → ℚ)
    (model : List (List ℚ) → List ℚ × List (List ℚ))
    (trainable_variables : List (List ℚ)) (l2_regularization : ℚ)
    (training_examples : List (List ℚ × ℚ × List ℚ)) :
    (|(kerasEvaluatorUpdate mexp mlog model trainable_variables
        l2_regularization training_examples).total -
      ((kerasEvaluatorUpdate mexp mlog model trainable_variables
          l2_regularization training_examples).policy +
        (kerasEvaluatorUpdate mexp mlog model trainable_variables
          l2_regularization training_examples).value +
        (kerasEvaluatorUpdate mexp mlog model trainable_variables
          l2_regularization training_examples).l2)| ≤ 1 / 1000000) ∧
    (kerasEvaluatorUpdate mexp mlog model trainable_variables
        l2_regularization training_examples).total =
      (kerasEvaluatorUpdate mexp mlog model trainable_variables
          l2_regularization training_examples).policy +
        (kerasEvaluatorUpdate mexp mlog model trainable_variables
          l2_regularization training_examples).value +
        (kerasEvaluatorUpdate mexp mlog model trainable_variables
          l2_regularization training_examples).l2 ∧
    (kerasEvaluatorUpdate mexp mlog model trainable_variables
        l2_regularization training_examples).value = mean_squared_error
      (model (training_examples.map (fun e => e.1))).1
      (training_examples.map (fun e => e.2.1)) ∧
    (kerasEvaluatorUpdate mexp mlog model trainable_variables
        l2_regularization training_examples).policy =
      (((model (training_examples.map (fun e => e.1))).2.zip
          (training_examples.map (fun e => e.2.2))).map
        (fun lp => softmax_cross_entropy mexp mlog lp.1 lp.2)).sum /
      (((((model (training_examples.map (fun e => e.1))).2.zip
          (training_examples.map (fun e => e.2.2))).map
        (fun lp => softmax_cross_entropy mexp mlog lp.1 lp.2)).length : ℚ)) ∧
    (kerasEvaluatorUpdate mexp mlog model trainable_variables
        l2_regularization training_examples).l2 =
      (trainable_variables.map
        (fun w => l2_regularization * l2_loss w)).sum ∧
    (∀ w : List ℚ, l2_loss w = ((w.map (fun x => x ^ 2)).sum) / 2) := by
  have htot : (kerasEvaluatorUpdate mexp mlog model trainable_variables
      l2_regularization training_examples).total =
      (kerasEvaluatorUpdate mexp mlog model trainable_variables
        l2_regularization training_examples).policy +
      (kerasEvaluatorUpdate mexp mlog model trainable_variables
        l2_regularization training_examples).value +
      (kerasEvaluatorUpdate mexp mlog model trainable_variables
        l2_regularization training_examples).l2 := rfl
  refine ⟨?_, htot, rfl, rfl, rfl, fun w => rfl⟩
  rw [htot, sub_self, abs_zero]
  norm_num

/-- C2: for every completed self-play episode (a run of the self-play loop
that reaches a terminal state), the transition emitted for recorded step `i`
(0-indexed in play order) carries
`target_value = terminal_rewards[i % 2]`, computed from the reward vector of
the terminal state, regardless of which player actually moved at step `i`. -/
theorem claim_C2 {S : Type} (g : GameM S) (search : S → List Child)
    (mexp : ℚ → ℚ) (choice : List ℚ → ℕ) (thresh fuel : ℕ) (s0 final : S)
    (recs : List (List ℚ × List ℚ)) (ts : List MCTSResult)
    (hrun : selfPlayLoop g search mexp choice thresh fuel s0 [] =
      some (final, recs))
    (hts : selfPlayTransitions g search mexp choice thresh fuel s0 = some ts) :
    ts.length = recs.length ∧
    ∀ i, (h : i < ts.length) →
      ts[i].target_value = (g.rewards final).getD (i % 2) 0 := by
  unfold selfPlayTransitions at hts
  rw [hrun] at hts
  simp only [Option.map_some', Option.some.injEq] at hts
  subst hts
  constructor
  · simp
  · intro i h
    have hi : i < recs.enum.length := by simpa using h
    rw [List.getElem_map]
    simp [List.getElem_enum]

/-- Witness for C2: one toy self-play episode records exactly one step, and
its transition's `target_value` is `terminal_rewards[0 % 2] = 5`. -/
theorem claim_C2_witness :
    selfPlayLoop toyGame toySearch id (fun _ => 0) 0 2 0 [] =
      some (1, [([], [1])]) ∧
    selfPlayTransitions toyGame toySearch id (fun _ => 0) 0 2 0 =
      some [{ observation := [], target_value := 5, target_policy := [1] }] ∧
    ([{ observation := [], target_value := 5, target_policy := [1] }] :
        List MCTSResult).length =
      ([([], [1])] : List (List ℚ × List ℚ)).length ∧
    ([{ observation := [], target_value := 5, target_policy := [1] }] :
        List MCTSResult)[0].target_value =
      (toyGame.rewards 1).getD (0 % 2) 0 := by
  have h1 : selfPlayLoop toyGame toySearch id (fun _ => 0) 0 2 0 [] =
      some (1, [([], [1])]) := by
    simp [selfPlayLoop, toyGame, toySearch, toyChild, selectAction, pyMax,
      targetPolicy, lexLt]
  have h2 : selfPlayTransitions toyGame toySearch id (fun _ => 0) 0 2 0 =
      some [{ observation := [], target_value := 5, target_policy := [1] }] := by
    unfold selfPlayTransitions
    rw [h1]
    simp [toyGame]
  have h := claim_C2 toyGame toySearch id (fun _ => 0) 0 2 0 1 [([], [1])]
    [{ observation := [], target_value := 5, target_policy := [1] }] h1 h2
  exact ⟨h1, h2, h.1, h.2 0 (by norm_num)⟩

theorem lexLt_le {a b : ℕ × ℕ} (h : lexLt a b) : lexLe a b := by
  unfold lexLt at h
  unfold lexLe
  omega

theorem lexLe_of_not_lt {a b : ℕ × ℕ} (h : ¬ lexLt a b) : lexLe b a := by
  unfold lexLt at h
  unfold lexLe
  omega

theorem lexLe_trans {a b c : ℕ × ℕ} (h1 : lexLe a b) (h2 : lexLe b c) :
    lexLe a c := by
  unfold lexLe at h1 h2 ⊢
  omega

theorem lexLe_refl (a : ℕ × ℕ) : lexLe a a := by
  unfold lexLe
  omega

theorem foldlMax_le_seed : ∀ (xs : List (ℕ × ℕ)) (a : ℕ × ℕ),
    lexLe a (xs.foldl (fun a b => if lexLt a b then b else a) a)
  | [], a => lexLe_refl a
  | x :: xs, a => by
    simp only [List.foldl_cons]
    by_cases h : lexLt a x
    · rw [if_pos h]
      exact lexLe_trans (lexLt_le h) (foldlMax_le_seed xs x)
    · rw [if_neg h]
      exact foldlMax_le_seed xs a

theorem foldlMax_ge_mem : ∀ (xs : List (ℕ × ℕ)) (a b : ℕ × ℕ), b ∈ xs →
    lexLe b (xs.foldl (fun a b => if lexLt a b then b else a) a)
  | [], _, b, h => absurd h (List.not_mem_nil b)
  | x :: xs, a, b, h => by
    simp only [List.foldl_cons]
    rcases List.mem_cons.mp h with rfl | hmem
    · by_cases hx : lexLt a b
      · rw [if_pos hx]
        exact foldlMax_le_seed xs b
      · rw [if_neg hx]
        exact lexLe_trans (lexLe_of_not_lt hx) (foldlMax_le_seed xs a)
    · exact foldlMax_ge_mem xs _ b hmem

theorem foldlMax_mem : ∀ (xs : List (ℕ × ℕ)) (a : ℕ × ℕ),
    xs.foldl (fun a b => if lexLt a b then b else a) a = a ∨
      xs.foldl (fun a b => if lexLt a b then b else a) a ∈ xs
  | [], _ => Or.inl rfl
  | x :: xs, a => by
    simp only [List.foldl_cons]
    by_cases h : lexLt a x
    · rw [if_pos h]
      rcases foldlMax_mem xs x with he | hm
      · refine Or.inr ?_
        rw [he]
        exact List.mem_cons_self x xs
      · exact Or.inr (List.mem_cons_of_mem x hm)
    · rw [if_neg h]
      rcases foldlMax_mem xs a with he | hm
      · exact Or.inl he
      · exact Or.inr (List.mem_cons_of_mem x hm)

theorem pyMax_spec (x : ℕ × ℕ) (xs : List (ℕ × ℕ)) :
    ∃ p, pyMax (x :: xs) = some p ∧ p ∈ x :: xs ∧ ∀ q ∈ x :: xs, lexLe q p := by
  refine ⟨xs.foldl (fun a b => if lexLt a b then b else a) x, rfl, ?_, ?_⟩
  · rcases foldlMax_mem xs x with he | hm
    · rw [he]
      exact List.mem_cons_self x xs
    · exact List.mem_cons_of_mem x hm
  · intro q hq
    rcases List.mem_cons.mp hq with rfl | hmem
    · exact foldlMax_le_seed xs q
    · exact foldlMax_ge_mem xs x q hmem

theorem np_softmax_getD (mexp : ℚ → ℚ) (l : List ℚ) (i : ℕ)
    (h : i < l.length) :
    (np_softmax mexp l).getD i 0 =
      mexp (l.getD i 0 - np_amax l) /
        ((l.map (fun x => mexp (x - np_amax l))).sum) := by
  unfold np_softmax
  have h1 : i < (l.map (fun x => mexp (x - np_amax l))).length := by
    simpa using h
  have h2 : i < ((l.map (fun x => mexp (x - np_amax l))).map
      (fun x => x / ((l.map (fun y => mexp (y - np_amax l))).sum))).length := by
    simpa using h
  rw [List.getD_eq_getElem _ _ h2, List.getElem_map, List.getElem_map,
    List.getD_eq_getElem _ _ h]

/-- C6: in `_select_action`, when fewer moves than
`action_selection_transition` have been played, the played child is the one
at the index the global sampler draws from the numerically stable softmax
over the children's raw explore counts (maximum subtracted before
exponentiating); at or above the threshold, selection is the deterministic
maximum over the `(explore_count, action)` pairs, so among children with
equal `explore_count` the numerically larger action-id is chosen. -/
theorem claim_C6 (mexp : ℚ → ℚ) (choice : List ℚ → ℕ) (children : List Child)
    (game_history_len thresh : ℕ) (hne : children ≠ []) :
    (game_history_len < thresh →
      selectAction mexp choice children game_history_len thresh =
        ((children.map (fun c => (c.explore_count, c.action))).get?
            (choice (np_softmax mexp
              (children.map (fun c => ((c.explore_count : ℚ))))))).map
          (fun p => p.2) ∧
      ∀ i, i < children.length →
        (np_softmax mexp
            (children.map (fun c => ((c.explore_count : ℚ))))).getD i 0 =
          mexp ((children.map (fun c => ((c.explore_count : ℚ)))).getD i 0 -
              np_amax (children.map (fun c => ((c.explore_count : ℚ))))) /
            (((children.map (fun c => ((c.explore_count : ℚ)))).map
              (fun x => mexp (x - np_amax (children.map
                (fun c => ((c.explore_count : ℚ))))))).sum)) ∧
    (thresh ≤ game_history_len →
      ∃ p, pyMax (children.map (fun c => (c.explore_count, c.action))) =
          some p ∧
        selectAction mexp choice children game_history_len thresh =
          some p.2 ∧
        p ∈ children.map (fun c => (c.explore_count, c.action)) ∧
        (∀ q ∈ children.map (fun c => (c.explore_count, c.action)),
          lexLe q p) ∧
        (∀ q ∈ children.map (fun c => (c.explore_count, c.action)),
          q.1 = p.1 → q.2 ≤ p.2)) := by
  constructor
  · intro hlt
    constructor
    · unfold selectAction
      rw [if_pos hlt, List.map_map]
      rfl
    · intro i hi
      exact np_softmax_getD mexp _ i (by simpa using hi)
  · intro hge
    obtain ⟨c, cs, hcons⟩ := List.exists_cons_of_ne_nil hne
    subst hcons
    obtain ⟨p, hp, hmem, hall⟩ :=
      pyMax_spec (c.explore_count, c.action)
        (cs.map (fun c => (c.explore_count, c.action)))
    refine ⟨p, ?_, ?_, ?_, ?_, ?_⟩
    · rw [List.map_cons]
      exact hp
    · unfold selectAction
      rw [if_neg (not_lt.mpr hge), List.map_cons, hp]
      rfl
    · rw [List.map_cons]
      exact hmem
    · intro q hq
      rw [List.map_cons] at hq
      exact hall q hq
    · intro q hq he
      rw [List.map_cons] at hq
      have hle := hall q hq
      unfold lexLe at hle
      omega

/-- Witness for C6 at a concrete deterministic selection: move number 5 is
at/above the threshold 3; `childA` (action 0) and `childB` (action 3) tie at
explore count 2, and the numerically larger action-id 3 is played. -/
theorem claim_C6_witness :
    ([childA, childB, childC] : List Child) ≠ [] ∧ (3 : ℕ) ≤ 5 ∧
    selectAction id (fun _ => 0) [childA, childB, childC] 5 3 = some 3 ∧
    ∃ p, pyMax ([childA, childB, childC].map
        (fun c => (c.explore_count, c.action))) = some p ∧
      selectAction id (fun _ => 0) [childA, childB, childC] 5 3 =
        some p.2 ∧
      p ∈ [childA, childB, childC].map
        (fun c => (c.explore_count, c.action)) ∧
      (∀ q ∈ [childA, childB, childC].map
        (fun c => (c.explore_count, c.action)), lexLe q p) ∧
      (∀ q ∈ [childA, childB, childC].map
        (fun c => (c.explore_count, c.action)), q.1 = p.1 → q.2 ≤ p.2) := by
  refine ⟨by simp, by norm_num, by decide, ?_⟩
  exact (claim_C6 id (fun _ => 0) [childA, childB, childC] 5 3
    (by simp)).2 (by norm_num)

theorem polFold_length : ∀ (cs : List Child) (arr : List ℚ),
    (cs.foldl (fun a c => a.set c.action ((c.explore_count : ℚ))) arr).length =
      arr.length
  | [], _ => rfl
  | c :: cs, arr => by
    simp only [List.foldl_cons]
    rw [polFold_length cs]
    exact List.length_set arr _ _

theorem getD_set_ne (l : List ℚ) (i j : ℕ) (x : ℚ) (h : i ≠ j) :
    (l.set i x).getD j 0 = l.getD j 0 := by
  rw [List.getD_eq_getD_get?, List.getD_eq_getD_get?, List.get?_set_ne x l h]

theorem getD_set_self (l : List ℚ) (i : ℕ) (x : ℚ) (h : i < l.length) :
    (l.set i x).getD i 0 = x := by
  rw [List.getD_eq_getD_get?, List.get?_set_eq_of_lt x h]
  rfl

theorem polFold_getD_of_not_mem :
    ∀ (cs : List Child) (arr : List ℚ) (a : ℕ), a ∉ cs.map Child.action →
    (cs.foldl (fun a c => a.set c.action ((c.explore_count : ℚ))) arr).getD
      a 0 = arr.getD a 0
  | [], _, _, _ => rfl
  | c :: cs, arr, a, h => by
    simp only [List.map_cons, List.mem_cons, not_or] at h
    simp only [List.foldl_cons]
    rw [polFold_getD_of_not_mem cs _ a h.2]
    exact getD_set_ne arr c.action a _ (fun he => h.1 he.symm)

theorem polFold_getD_of_mem :
    ∀ (cs : List Child) (arr : List ℚ) (c : Child), c ∈ cs →
    (cs.map Child.action).Nodup → c.action < arr.length →
    (cs.foldl (fun a c => a.set c.action ((c.explore_count : ℚ))) arr).getD
      c.action 0 = (c.explore_count : ℚ)
  | [], _, c, hc, _, _ => absurd hc (List.not_mem_nil c)
  | c' :: cs, arr, c, hc, hnd, hlt => by
    simp only [List.map_cons, List.nodup_cons] at hnd
    simp only [List.foldl_cons]
    rcases List.mem_cons.mp hc with rfl | hmem
    · rw [polFold_getD_of_not_mem cs _ c.action hnd.1]
      exact getD_set_self arr c.action _ hlt
    · exact polFold_getD_of_mem cs _ c hmem hnd.2
        (by rw [List.length_set]; exact hlt)

theorem sum_set_getD : ∀ (l : List ℚ) (i : ℕ) (x : ℚ), i < l.length →
    (l.set i x).sum = l.sum - l.getD i 0 + x
  | [], i, _, h => absurd h (by simp)
  | a :: l, 0, x, _ => by
    simp [List.set]
    ring
  | a :: l, i + 1, x, h => by
    simp only [List.set, List.sum_cons]
    rw [sum_set_getD l i x (by simpa using h)]
    have hg : (a :: l).getD (i + 1) 0 = l.getD i 0 := rfl
    rw [hg]
    ring

theorem polFold_sum : ∀ (cs : List Child) (arr : List ℚ),
    (∀ c ∈ cs, c.action < arr.length ∧ arr.getD c.action 0 = 0) →
    (cs.map Child.action).Nodup →
    (cs.foldl (fun a c => a.set c.action ((c.explore_count : ℚ))) arr).sum =
      arr.sum + (cs.map (fun c => (c.explore_count : ℚ))).sum
  | [], arr, _, _ => by simp
  | c :: cs, arr, hinv, hnd => by
    simp only [List.map_cons, List.nodup_cons] at hnd
    simp only [List.foldl_cons, List.map_cons, List.sum_cons]
    have hc := hinv c (List.mem_cons_self c cs)
    rw [polFold_sum cs (arr.set c.action ((c.explore_count : ℚ)))
      (fun c' hc' => ?_) hnd.2]
    · rw [sum_set_getD arr c.action _ hc.1, hc.2]
      ring
    · constructor
      · rw [List.length_set]
        exact (hinv c' (List.mem_cons_of_mem c hc')).1
      · have hne : c.action ≠ c'.action := by
          intro he
          exact hnd.1 (he ▸ List.mem_map_of_mem Child.action hc')
        rw [getD_set_ne arr c.action c'.action _ hne]
        exact (hinv c' (List.mem_cons_of_mem c hc')).2

theorem getD_replicate_zero (n a : ℕ) :
    (List.replicate n (0 : ℚ)).getD a 0 = 0 := by
  by_cases h : a < n
  · rw [List.getD_eq_getElem _ _ (by simpa using h)]
    exact List.getElem_replicate 0 (by simpa using h)
  · exact List.getD_eq_default _ _ (by simpa using Nat.le_of_not_lt h)

theorem getD_map_div (l : List ℚ) (s : ℚ) (i : ℕ) :
    (l.map (fun x => x / s)).getD i 0 = (l.getD i 0) / s := by
  by_cases h : i < l.length
  · rw [List.getD_eq_getElem _ _ (by simpa using h), List.getElem_map,
      List.getD_eq_getElem _ _ h]
  · rw [List.getD_eq_default _ _ (by simpa using Nat.le_of_not_lt h),
      List.getD_eq_default _ _ (by simpa using Nat.le_of_not_lt h)]
    rw [zero_div]

theorem sum_map_div (l : List ℚ) (s : ℚ) :
    (l.map (fun x => x / s)).sum = l.sum / s := by
  induction l with
  | nil => simp
  | cons a l ih => simp [ih, add_div]

/-- C7: when the search root's children have pairwise-distinct in-range
actions and at least one positive explore count, the recorded target-policy
vector over the full action space assigns probability 0 to every action-id
not appearing among the children, assigns each child a probability
proportional to its explore count (count divided by the total count), and
sums to 1. -/
theorem claim_C7 (n : ℕ) (children : List Child)
    (hnd : (children.map Child.action).Nodup)
    (hrange : ∀ c ∈ children, c.action < n)
    (hpos : ∃ c ∈ children, 0 < c.explore_count) :
    (targetPolicy n children).length = n ∧
    (∀ a, a < n → a ∉ children.map Child.action →
      (targetPolicy n children).getD a 0 = 0) ∧
    (∀ c ∈ children, (targetPolicy n children).getD c.action 0 =
      (c.explore_count : ℚ) /
        ((children.map (fun c => (c.explore_count : ℚ))).sum)) ∧
    (targetPolicy n children).sum = 1 := by
  have hinv : ∀ c ∈ children,
      c.action < (List.replicate n (0 : ℚ)).length ∧
      (List.replicate n (0 : ℚ)).getD c.action 0 = 0 := by
    intro c hc
    exact ⟨by simpa using hrange c hc, getD_replicate_zero n c.action⟩
  have hsum : (children.foldl
      (fun a c => a.set c.action ((c.explore_count : ℚ)))
      (List.replicate n (0 : ℚ))).sum =
      (children.map (fun c => (c.explore_count : ℚ))).sum := by
    rw [polFold_sum children _ hinv hnd]
    simp
  have hS : (0 : ℚ) < (children.map (fun c => (c.explore_count : ℚ))).sum := by
    obtain ⟨c, hc, hcpos⟩ := hpos
    have hmem : ((c.explore_count : ℚ)) ∈
        children.map (fun c => (c.explore_count : ℚ)) :=
      List.mem_map_of_mem _ hc
    have hnn : ∀ x ∈ children.map (fun c => (c.explore_count : ℚ)), 0 ≤ x := by
      intro x hx
      obtain ⟨c', _, hx'⟩ := List.mem_map.mp hx
      rw [← hx']
      exact Nat.cast_nonneg _
    have hle := List.single_le_sum hnn _ hmem
    have h0 : (0 : ℚ) < (c.explore_count : ℚ) := by exact_mod_cast hcpos
    exact lt_of_lt_of_le h0 hle
  unfold targetPolicy
  refine ⟨?_, ?_, ?_, ?_⟩
  · rw [List.length_map, polFold_length]
    simp
  · intro a _ hnotmem
    rw [getD_map_div, polFold_getD_of_not_mem children _ a hnotmem,
      getD_replicate_zero, zero_div]
  · intro c hc
    rw [getD_map_div, polFold_getD_of_mem children _ c hc hnd
      (by simpa using hrange c hc), hsum]
  · rw [sum_map_div, hsum, div_self (ne_of_gt hS)]

/-- Witness for C7 at the concrete root children `[childA, childB, childC]`
over a 4-action space: counts `[2, 2, 1]` at actions `[0, 3, 1]` give the
policy `[2/5, 0, 1/5, 2/5]`, which sums to 1. -/
theorem claim_C7_witness :
    ((([childA, childB, childC] : List Child).map Child.action).Nodup) ∧
    (∀ c ∈ ([childA, childB, childC] : List Child), c.action < 4) ∧
    (∃ c ∈ ([childA, childB, childC] : List Child), 0 < c.explore_count) ∧
    (targetPolicy 4 [childA, childB, childC]).length = 4 ∧
    (∀ a, a < 4 →
      a ∉ ([childA, childB, childC] : List Child).map Child.action →
      (targetPolicy 4 [childA, childB, childC]).getD a 0 = 0) ∧
    (∀ c ∈ ([childA, childB, childC] : List Child),
      (targetPolicy 4 [childA, childB, childC]).getD c.action 0 =
        (c.explore_count : ℚ) /
          ((([childA, childB, childC] : List Child).map
            (fun c => (c.explore_count : ℚ))).sum)) ∧
    (targetPolicy 4 [childA, childB, childC]).sum = 1 := by
  have h := claim_C7 4 [childA, childB, childC] (by decide) (by decide)
    (by decide)
  exact ⟨by decide, by decide, by decide, h.1, h.2.1, h.2.2.1, h.2.2.2⟩

theorem listSum_getD : ∀ (l : List ℚ),
    l.sum = ∑ i ∈ Finset.range l.length, l.getD i 0
  | [] => by simp
  | a :: l => by
    rw [List.sum_cons, listSum_getD l, List.length_cons,
      Finset.sum_range_succ']
    have h0 : (a :: l).getD 0 0 = a := rfl
    have hs : ∀ i, (a :: l).getD (i + 1) 0 = l.getD i 0 := fun _ => rfl
    simp only [h0, hs]
    ring

theorem masked_entry (mexp : ℚ → ℚ) (policy : List ℚ) (mask : List Bool)
    (hlen : mask.length = policy.length) (i : ℕ) (h : i < policy.length) :
    ((policy.zip mask).map
      (fun pm => if pm.2 then mexp pm.1 else 0)).getD i 0 =
      if mask.getD i false then mexp (policy.getD i 0) else 0 := by
  have hzip : i < (policy.zip mask).length := by
    rw [List.length_zip, hlen, Nat.min_self]
    exact h
  have hmap : i < ((policy.zip mask).map
      (fun pm => if pm.2 then mexp pm.1 else 0)).length := by
    simpa using hzip
  rw [List.getD_eq_getElem _ _ hmap, List.getElem_map, List.getElem_zip,
    List.getD_eq_getElem _ _ (show i < mask.length by rw [hlen]; exact h),
    List.getD_eq_getElem _ _ h]

theorem masked_sum (mexp : ℚ → ℚ) (policy : List ℚ) (mask : List Bool)
    (legal : List ℕ) (hlen : mask.length = policy.length)
    (hnd : legal.Nodup)
    (hmem : ∀ a ∈ legal, a < mask.length ∧ mask.getD a false = true)
    (hleg : ∀ i, i < mask.length → mask.getD i false = true → i ∈ legal) :
    ((policy.zip mask).map (fun pm => if pm.2 then mexp pm.1 else 0)).sum =
      (legal.map (fun a => mexp (policy.getD a 0))).sum := by
  have hmlen : ((policy.zip mask).map
      (fun pm => if pm.2 then mexp pm.1 else 0)).length = policy.length := by
    simp [List.length_zip, hlen]
  rw [listSum_getD, hmlen]
  have hcongr : ∀ i ∈ Finset.range policy.length,
      ((policy.zip mask).map
        (fun pm => if pm.2 then mexp pm.1 else 0)).getD i 0 =
      if mask.getD i false = true then mexp (policy.getD i 0) else 0 := by
    intro i hi
    rw [masked_entry mexp policy mask hlen i (Finset.mem_range.mp hi)]
  rw [Finset.sum_congr rfl hcongr, ← Finset.sum_filter]
  have hfin : (Finset.range policy.length).filter
      (fun i => mask.getD i false = true) = legal.toFinset := by
    ext i
    simp only [Finset.mem_filter, Finset.mem_range, List.mem_toFinset]
    constructor
    · rintro ⟨h1, h2⟩
      exact hleg i (by rw [hlen]; exact h1) h2
    · intro hi
      obtain ⟨h1, h2⟩ := hmem i hi
      exact ⟨by rw [← hlen]; exact h1, h2⟩
  rw [hfin, List.sum_toFinset _ hnd]

/-- C8: `value_and_prior` returns the masked softmax of the model's raw
policy restricted to the state's legal actions — an illegal action gets zero
probability mass and does not enter the normalization denominator, which
sums the exponentials over the legal actions only — with the returned
`(action, probability)` list ranging over exactly the legal actions,
together with the 2-player antisymmetric value vector `[v, -v]` expanded
from the model's single scalar value `v`.  The hypotheses say that the
legal-actions mask is aligned with the raw policy vector and marks exactly
the legal actions. -/
theorem claim_C8 (mexp : ℚ → ℚ) (model : List ℚ → ℚ × List ℚ)
    (state : EvalState)
    (hlen : state.legal_actions_mask.length =
      (model state.observation_tensor).2.length)
    (hnd : state.legal_actions.Nodup)
    (hmem : ∀ a ∈ state.legal_actions,
      a < state.legal_actions_mask.length ∧
      state.legal_actions_mask.getD a false = true)
    (hleg : ∀ i, i < state.legal_actions_mask.length →
      state.legal_actions_mask.getD i false = true →
      i ∈ state.legal_actions) :
    (value_and_prior mexp model state).1 =
      [(model state.observation_tensor).1,
        -(model state.observation_tensor).1] ∧
    (value_and_prior mexp model state).2.map Prod.fst =
      state.legal_actions ∧
    (∀ a, a < state.legal_actions_mask.length →
      state.legal_actions_mask.getD a false = false →
      (np_masked_softmax mexp (model state.observation_tensor).2
        state.legal_actions_mask).getD a 0 = 0) ∧
    (∀ pr ∈ (value_and_prior mexp model state).2,
      pr.2 = mexp ((model state.observation_tensor).2.getD pr.1 0) /
        ((state.legal_actions.map
          (fun b => mexp ((model state.observation_tensor).2.getD b 0))).sum)) := by
  refine ⟨rfl, ?_, ?_, ?_⟩
  · unfold value_and_prior
    simp only [List.map_map]
    exact List.map_id _
  · intro a ha hfalse
    unfold np_masked_softmax
    rw [getD_map_div, masked_entry mexp _ _ hlen a
      (by rw [← hlen]; exact ha)]
    rw [hfalse]
    simp
  · intro pr hpr
    unfold value_and_prior at hpr
    simp only [List.mem_map] at hpr
    obtain ⟨a, ha, rfl⟩ := hpr
    unfold np_masked_softmax
    rw [getD_map_div, masked_entry mexp _ _ hlen a
      (by rw [← hlen]; exact (hmem a ha).1), (hmem a ha).2,
      masked_sum mexp _ _ state.legal_actions hlen hnd hmem hleg]
    rfl

/-- Witness for C8 at a concrete state: raw policy `[1, 2, 3]`, mask
`[true, false, true]`, legal actions `[0, 2]`, model value `7`. -/
theorem claim_C8_witness :
    ((⟨[], [0, 2], [true, false, true]⟩ :
        EvalState).legal_actions_mask.length =
      ((fun (_ : List ℚ) => ((7 : ℚ), ([1, 2, 3] : List ℚ)))
        (⟨[], [0, 2], [true, false, true]⟩ :
          EvalState).observation_tensor).2.length) ∧
    ((⟨[], [0, 2], [true, false, true]⟩ : EvalState).legal_actions.Nodup) ∧
    (value_and_prior id (fun _ => ((7 : ℚ), ([1, 2, 3] : List ℚ)))
        ⟨[], [0, 2], [true, false, true]⟩).1 = [7, -7] ∧
    (value_and_prior id (fun _ => ((7 : ℚ), ([1, 2, 3] : List ℚ)))
        ⟨[], [0, 2], [true, false, true]⟩).2.map Prod.fst = [0, 2] ∧
    (∀ pr ∈ (value_and_prior id (fun _ => ((7 : ℚ), ([1, 2, 3] : List ℚ)))
        ⟨[], [0, 2], [true, false, true]⟩).2,
      pr.2 = id ((([1, 2, 3] : List ℚ)).getD pr.1 0) /
        ((([0, 2] : List ℕ).map
          (fun b => id ((([1, 2, 3] : List ℚ)).getD b 0))).sum)) := by
  have h := claim_C8 id (fun _ => ((7 : ℚ), ([1, 2, 3] : List ℚ)))
    ⟨[], [0, 2], [true, false, true]⟩ (by decide) (by decide) (by decide)
    (by decide)
  exact ⟨by decide, by decide, h.1, h.2.1, h.2.2.2⟩
